import Mathlib

/-!
Shallow embedding of `src/process_cass_values.py`, a small benchmark
post-processing script: parse CLI point tokens, normalize throughput against
the maximum, and render CSV / JSON / fixed-width-table output plus an
optional matplotlib bar chart.

Modelling conventions:
* Python floats are modelled as exact rationals (`ℚ`).  All concrete values
  appearing in the claims are exactly representable, so rational arithmetic
  coincides with the Python float arithmetic on them.
* A Python dict `{"cpu_pct": ..., "throughput": ..., "latency": ...}` with an
  optionally present key `"normalized_throughput"` is modelled by the
  structure `Sample`; the outer `Option` of `normalized_throughput` encodes
  key presence, the inner one the Python value `None`.
* Strings are manipulated as `List Char`; `String.split(",")`, `str.strip()`
  and `str.upper()` are modelled character by character.
* `float(...)` is modelled by `pyFloat`, covering sign, decimal digits,
  decimal point and exponent.  The special literals `inf`/`nan` and
  underscore digit separators accepted by Python are outside the embedding
  (no claim mentions them), as is binary-double rounding.
-/

set_option maxRecDepth 40000

namespace CassValues

/-- One benchmark data point, as produced by `parse_point`.  The raw fields
mirror the dict keys `cpu_pct`, `throughput`, `latency`; the derived key
`normalized_throughput` is absent (`none`) until `add_normalized` runs, and
then holds `some v` where `v : Option ℚ` is the Python value (possibly
`None`, i.e. `none`). -/
structure Sample where
  cpu_pct : Option ℚ
  throughput : Option ℚ
  latency : Option ℚ
  normalized_throughput : Option (Option ℚ) := none
deriving DecidableEq, Repr

/-- Python `str.split(",")` on the character list: split on every comma,
keeping empty fields, always returning at least one field. -/
def splitComma : List Char → List (List Char)
  | [] => [[]]
  | c :: cs =>
    match splitComma cs with
    | [] => [[]]
    | f :: r => if c = ',' then [] :: f :: r else (c :: f) :: r

/-- Python `str.strip()`: drop leading and trailing whitespace. -/
def pyStrip (cs : List Char) : List Char :=
  ((cs.dropWhile Char.isWhitespace).reverse.dropWhile Char.isWhitespace).reverse

/-- Python `str.upper()` on ASCII text. -/
def pyUpper (cs : List Char) : List Char := cs.map Char.toUpper

/-- Numeric value of a list of decimal digit characters. -/
def digitsToNat (ds : List Char) : Nat :=
  ds.foldl (fun a c => 10 * a + (c.toNat - 48)) 0

/-- Ten to a natural power, as a rational (kept at the `Nat` level so that
concrete values reduce). -/
def pow10 (k : Nat) : ℚ := ((10 ^ k : Nat) : ℚ)

/-- Ten to an integer power, as a rational. -/
def zpow10 : Int → ℚ
  | .ofNat k => pow10 k
  | .negSucc k => 1 / pow10 (k + 1)

/-- Mantissa part of a Python float literal: digits, optionally with a
decimal point (at least one digit overall).  Returns the value and the
unconsumed remainder. -/
def pyFloatMantissa (cs : List Char) : Option (ℚ × List Char) :=
  let ip := cs.takeWhile Char.isDigit
  let rest := cs.dropWhile Char.isDigit
  match rest with
  | '.' :: rest2 =>
    let fp := rest2.takeWhile Char.isDigit
    let rest3 := rest2.dropWhile Char.isDigit
    if ip = [] ∧ fp = [] then none
    else some ((digitsToNat ip : ℚ) + (digitsToNat fp : ℚ) / pow10 fp.length, rest3)
  | _ => if ip = [] then none else some ((digitsToNat ip : ℚ), rest)

/-- Exponent part of a Python float literal (the text after `e`/`E`):
optional sign followed by at least one digit, consuming everything. -/
def pyFloatExp (cs : List Char) : Option Int :=
  let sgned : Int × List Char :=
    match cs with
    | '+' :: r => (1, r)
    | '-' :: r => (-1, r)
    | _ => (1, cs)
  if sgned.2 ≠ [] ∧ sgned.2.all Char.isDigit then
    some (sgned.1 * (digitsToNat sgned.2 : Int))
  else none

/-- Python `float(text)` on an already-stripped literal, as an exact
rational: optional sign, decimal mantissa, optional `e`/`E` exponent.
Returns `none` when Python would raise `ValueError`. -/
def pyFloat (cs : List Char) : Option ℚ :=
  let sgned : ℚ × List Char :=
    match cs with
    | '+' :: r => (1, r)
    | '-' :: r => (-1, r)
    | _ => (1, cs)
  match pyFloatMantissa sgned.2 with
  | none => none
  | some (m, rest) =>
    match rest with
    | [] => some (sgned.1 * m)
    | 'e' :: r => (pyFloatExp r).map fun ex => sgned.1 * m * zpow10 ex
    | 'E' :: r => (pyFloatExp r).map fun ex => sgned.1 * m * zpow10 ex
    | _ => none

/-- `parse_num` from `parse_point`: strip the field, map the empty string and
the case-insensitive token `N/A` to `None`, otherwise try `float(...)`,
silently mapping failure to `None`. -/
def parse_num (val : List Char) : Option ℚ :=
  let v := pyStrip val
  if v = [] ∨ pyUpper v = ['N', '/', 'A'] then none
  else pyFloat v

/-- A single-quote character as a string (used in the `parse_point` error
message). -/
def sq : String := String.singleton (Char.ofNat 39)

/-- The `ValueError` message raised by `parse_point` for a token that does
not split into exactly three comma-separated fields. -/
def badPointMsg (text : String) : String :=
  "Bad point " ++ sq ++ text ++ sq ++ ": expected cpu,throughput,latency"

/-- `parse_point`: split the token on commas; exactly three fields produce a
`Sample` (each field through `parse_num`), any other field count raises
`ValueError` with `badPointMsg`. -/
def parse_point (text : String) : Except String Sample :=
  match splitComma text.toList with
  | [p0, p1, p2] =>
    .ok { cpu_pct := parse_num p0, throughput := parse_num p1, latency := parse_num p2 }
  | _ => .error (badPointMsg text)

/-- The accumulator step of the `max_thr` loop in `add_normalized`: skip a
`None` throughput, otherwise keep the larger value. -/
def stepMax (acc : Option ℚ) (pt : Sample) : Option ℚ :=
  match pt.throughput with
  | none => acc
  | some thr =>
    match acc with
    | none => some thr
    | some m => if thr > m then some thr else some m

/-- The `max_thr` computed by the first loop of `add_normalized`. -/
def maxThr (points : List Sample) : Option ℚ := points.foldl stepMax none

/-- The body of the second loop of `add_normalized` for one sample: write
`normalized_throughput` (the key becomes present), with value
`thr / max_thr` when `max_thr` is truthy (non-`None` and nonzero) and the
sample's throughput is not `None`, else `None`. -/
def setNorm (maxT : Option ℚ) (pt : Sample) : Sample :=
  { pt with
    normalized_throughput :=
      some (match maxT, pt.throughput with
        | some m, some thr => if m = 0 then none else some (thr / m)
        | _, _ => none) }

/-- `add_normalized`, as a function on the sample list (the Python code
mutates the dicts in place; the returned list is the post-state). -/
def add_normalized (points : List Sample) : List Sample :=
  points.map (setNorm (maxThr points))

/-- Round `num / den` to the nearest integer, ties to even — the rounding
used by Python's fixed-point float formatting (exact on our rationals). -/
def roundHalfEvenNat (num den : Nat) : Nat :=
  let q := num / den
  let r := num % den
  if 2 * r < den then q
  else if den < 2 * r then q + 1
  else if q % 2 = 0 then q else q + 1

/-- Left-pad a digit string with zeros to length `k`. -/
def padZeros (s : String) (k : Nat) : String :=
  String.mk (List.replicate (k - s.length) '0') ++ s

/-- Python `f-string` fixed-point formatting `.{prec}f` of a float, on the
exact rational value: round half-to-even at `prec` decimal places. -/
def formatFixed (q : ℚ) (prec : Nat) : String :=
  let a : ℚ := |q|
  let scaled : ℚ := a * ((10 ^ prec : Nat) : ℚ)
  let n := roundHalfEvenNat scaled.num.toNat scaled.den
  (if q < 0 then "-" else "")
    ++ toString (n / 10 ^ prec)
    ++ (if prec = 0 then "" else "." ++ padZeros (toString (n % 10 ^ prec)) prec)

/-- Smallest `k` with `den ∣ 10 ^ k` (bounded search; every float value that
the embedded pipeline prints through `str()` has such a `k`). -/
def smallestPow10 (den : Nat) : Option Nat :=
  (List.range 40).find? fun k => 10 ^ k % den = 0

/-- Python `str()` / `repr()` of a float, on the exact rational value:
integral values print as `n.0`, other exact-decimal values print their
shortest decimal expansion.  Values whose denominator is not a divisor of a
power of ten fall back to a `num/den` marker: they are outside the
exact-decimal subset this embedding covers (Python would print a
shortest-round-trip double repr), and no claim depends on them. -/
def pyFloatRepr (q : ℚ) : String :=
  let sign := if q < 0 then "-" else ""
  let a : ℚ := |q|
  if a.den = 1 then sign ++ toString a.num.toNat ++ ".0"
  else
    match smallestPow10 a.den with
    | some k =>
      let n := (a * ((10 ^ k : Nat) : ℚ)).num.toNat
      sign ++ toString (n / 10 ^ k) ++ "." ++ padZeros (toString (n % 10 ^ k)) k
    | none => sign ++ toString a.num.toNat ++ "/" ++ toString a.den

/-- The header row written by `write_csv`. -/
def csvHeader : String :=
  "cpu_pct,cpu_availability_pct,throughput,latency,normalized_throughput"

/-- One data row written by `write_csv`: `cpu_pct` and the derived
availability pass through `str()` unformatted (as `csv.writer` stringifies
non-string cells), throughput and latency are `.2f`, the normalized value is
`.4f`, and missing values are empty cells. -/
def csvRow (pt : Sample) : String :=
  String.intercalate ","
    [(match pt.cpu_pct with | none => "" | some c => pyFloatRepr c),
     (match pt.cpu_pct with | none => "" | some c => pyFloatRepr (100 - c)),
     (match pt.throughput with | none => "" | some t => formatFixed t 2),
     (match pt.latency with | none => "" | some l => formatFixed l 2),
     (match pt.normalized_throughput with
      | some (some n) => formatFixed n 4
      | _ => "")]

/-- The rows of the CSV table (header first), without line terminators
(`csv.writer` ends each row with CRLF). -/
def write_csv_lines (points : List Sample) : List String :=
  csvHeader :: points.map csvRow

/-- State-passing form of `write_csv`: output rows, paired with the sample
list after the call.  The Python function only reads the dicts (it assigns
no key), so the post-state is the input list. -/
def write_csv (points : List Sample) : List String × List Sample :=
  (write_csv_lines points, points)

/-- Python `str.ljust`-style padding used by the `{:Ns}` format specifiers
in `print_table`. -/
def ljust (s : String) (w : Nat) : String :=
  s ++ String.mk (List.replicate (w - s.length) ' ')

/-- The row format of `print_table`: four left-justified columns of widths
12, 14, 12, 10, separated by single spaces. -/
def tableFmt (c0 c1 c2 c3 : String) : String :=
  ljust c0 12 ++ " " ++ ljust c1 14 ++ " " ++ ljust c2 12 ++ " " ++ ljust c3 10

/-- One data row of `print_table`. -/
def tableRow (pt : Sample) : String :=
  tableFmt
    (match pt.cpu_pct with | none => "" | some c => formatFixed (100 - c) 0 ++ "%")
    (match pt.throughput with | none => "" | some t => formatFixed t 2)
    (match pt.latency with | none => "" | some l => formatFixed l 2)
    (match pt.normalized_throughput with
     | some (some n) => formatFixed n 4
     | _ => "")

/-- The lines printed by `print_table`: header, a 48-dash separator, then
one row per sample in input order. -/
def print_table_lines (points : List Sample) : List String :=
  tableFmt "CPU avail" "Throughput" "Latency" "NormThr"
    :: String.mk (List.replicate 48 '-')
    :: points.map tableRow

/-- State-passing form of `print_table`: output lines, paired with the
sample list after the call (the Python function assigns no key). -/
def print_table (points : List Sample) : List String × List Sample :=
  (print_table_lines points, points)

/-- A JSON scalar as `json.dumps` prints it: `null` for `None`, float repr
otherwise. -/
def jsonVal : Option ℚ → String
  | none => "null"
  | some v => pyFloatRepr v

/-- The key/value lines of one sample's JSON object, in dict insertion
order; the `normalized_throughput` line appears only when the key is
present. -/
def jsonObjLines (pt : Sample) : List String :=
  ["\"cpu_pct\": " ++ jsonVal pt.cpu_pct,
   "\"throughput\": " ++ jsonVal pt.throughput,
   "\"latency\": " ++ jsonVal pt.latency]
    ++ (match pt.normalized_throughput with
        | none => []
        | some v => ["\"normalized_throughput\": " ++ jsonVal v])

/-- `json.dumps(points, indent=2)`. -/
def json_dumps (points : List Sample) : String :=
  if points.isEmpty then "[]"
  else
    "[\n"
      ++ String.intercalate ",\n"
          (points.map fun pt =>
            "  \x7b\n"
              ++ String.intercalate ",\n" ((jsonObjLines pt).map fun l => "    " ++ l)
              ++ "\n  \x7d")
      ++ "\n]"

/-- The chart renderer's `sort_key`: `cpu_pct`, with the numeric sentinel
999 for a missing value. -/
def sort_key (pt : Sample) : ℚ :=
  match pt.cpu_pct with
  | some c => c
  | none => 999

/-- The ordering `sorted(points, key=sort_key)` sorts by. -/
def sortLe (a b : Sample) : Prop := sort_key a ≤ sort_key b

instance : DecidableRel sortLe :=
  fun a b => inferInstanceAs (Decidable (sort_key a ≤ sort_key b))

instance : IsTotal Sample sortLe := ⟨fun a b => le_total (sort_key a) (sort_key b)⟩

instance : IsTrans Sample sortLe := ⟨fun _ _ _ h h2 => le_trans h h2⟩

/-- `pts_sorted` in `plot`: Python's `sorted` is a stable sort, ascending by
the key, so it is modelled by stable insertion sort over `sortLe`. -/
def pts_sorted (points : List Sample) : List Sample :=
  List.insertionSort sortLe points

/-- A bar's x-axis label in `plot`. -/
def plotLabel (pt : Sample) : String :=
  match pt.cpu_pct with
  | none => "?"
  | some c => formatFixed (100 - c) 0 ++ "%"

/-- A bar's height in `plot`: `normalized_throughput * 100`, or `0` when the
value is missing or `None`. -/
def plotHeight (pt : Sample) : ℚ :=
  match pt.normalized_throughput with
  | some (some n) => n * 100
  | _ => 0

/-- The stdout format selected by `--format`. -/
inductive OutFormat
  | csv
  | json
  | table
deriving DecidableEq, Repr

/-- The parsed CLI arguments of `main` (defaults as in the argparse
setup). -/
structure Args where
  points : List String
  format : OutFormat := .csv
  output_csv : Option String := none
  plot_out : String := "cass_normalized_throughput.png"
  no_plot : Bool := false
deriving DecidableEq, Repr

/-- The I/O environment `main` runs against: whether opening/writing the
`--output-csv` file succeeds, whether `import matplotlib` succeeds, whether
the chart write (`tight_layout`/`savefig`) succeeds, and whether stdout is a
TTY. -/
structure Env where
  csvFileOk : Bool
  matplotlibAvailable : Bool
  savefigOk : Bool
  stdoutIsTTY : Bool
deriving DecidableEq, Repr

/-- How the process ends: `main` returns an exit code, or an exception
escapes `main` (the interpreter then prints a traceback and the process
exits abnormally, with a nonzero status). -/
inductive MainResult
  | exit (code : Int)
  | uncaughtExc
deriving DecidableEq, Repr

/-- The list comprehension `[parse_point(p) for p in args.points]`: the
first `ValueError` aborts the whole comprehension. -/
def parse_points : List String → Except String (List Sample)
  | [] => .ok []
  | t :: ts =>
    match parse_point t with
    | .error e => .error e
    | .ok s =>
      match parse_points ts with
      | .error e => .error e
      | .ok ss => .ok (s :: ss)

/-- Python truthiness of an optional string (`None` and `""` are falsy). -/
def truthyOptStr : Option String → Bool
  | none => false
  | some s => !(s == "")

/-- The possible outcomes of `plot`: skipped because matplotlib is missing,
not rendered because there are no bars, chart written, or an exception from
the chart write escaping `plot` (its `try` has no `except`, only a
`finally`). -/
inductive PlotOutcome
  | skippedNoLib
  | notRendered
  | wrote
  | failedWrite
deriving DecidableEq, Repr

/-- The outcome of `plot(points, out_path)` in environment `env`, following
the source's control flow: the matplotlib import guard, then the empty-bars
check, then the write. -/
def plotOutcome (points : List Sample) (env : Env) : PlotOutcome :=
  if !env.matplotlibAvailable then .skippedNoLib
  else if points.isEmpty then .notRendered
  else if env.savefigOk then .wrote
  else .failedWrite

/-- The chunks each stdout renderer writes: CSV rows end in CRLF, the JSON
dump gains a final newline only when stdout is not a TTY, table rows are
`print`ed with a newline each. -/
def stdout_render (format : OutFormat) (points : List Sample) (isTTY : Bool) : List String :=
  match format with
  | .csv => (write_csv points).1.map fun l => l ++ "\r\n"
  | .json => [json_dumps points] ++ (if isTTY then [] else ["\n"])
  | .table => (print_table points).1.map fun l => l ++ "\n"

/-- `main(argv)` as a function from parsed arguments and environment to the
process outcome and the stdout chunks, following the source line by line:
parse all points (a `ValueError` prints to stderr and returns 1 before any
stdout output), normalize, write the optional CSV file (failure returns 1),
render to stdout, then plot unless disabled (a chart-write failure escapes
as an uncaught exception; everything else falls through to `return 0`). -/
def pymain (args : Args) (env : Env) : MainResult × List String :=
  match parse_points args.points with
  | .error _ => (.exit 1, [])
  | .ok parsed =>
    let points := add_normalized parsed
    if truthyOptStr args.output_csv && !env.csvFileOk then (.exit 1, [])
    else
      let out := stdout_render args.format points env.stdoutIsTTY
      if !args.no_plot && !(args.plot_out == "") then
        match plotOutcome points env with
        | .wrote => (.exit 0, out ++ ["Wrote plot to " ++ args.plot_out ++ "\n"])
        | .failedWrite => (.uncaughtExc, out)
        | _ => (.exit 0, out)
      else (.exit 0, out)

end CassValues

deriving instance DecidableEq for Except

namespace CassValues

example : parse_point "0,100000.0,620.0" =
    .ok { cpu_pct := some 0, throughput := some 100000, latency := some 620 } := by
  with_unfolding_all rfl

example : parse_num " N/a ".toList = none := by with_unfolding_all rfl
example : parse_num "-1.5e2".toList = some (-150) := by with_unfolding_all rfl
example : parse_num "abc".toList = none := by with_unfolding_all rfl

example :
    (add_normalized
      [{ cpu_pct := none, throughput := some 100000, latency := none },
       { cpu_pct := none, throughput := some 82000, latency := none },
       { cpu_pct := none, throughput := none, latency := none }]).map
      Sample.normalized_throughput
      = [some (some 1), some (some (41 / 50)), some none] := by with_unfolding_all rfl

end CassValues

namespace CassValues

/-! ### Lemmas about the `max_thr` loop -/

theorem stepMax_of_none (acc : Option ℚ) (pt : Sample) (h : pt.throughput = none) :
    stepMax acc pt = acc := by
  unfold stepMax; rw [h]

theorem stepMax_none_of_some (pt : Sample) (t : ℚ) (h : pt.throughput = some t) :
    stepMax none pt = some t := by
  unfold stepMax; rw [h]

theorem stepMax_some_of_some (pt : Sample) (t m : ℚ) (h : pt.throughput = some t) :
    stepMax (some m) pt = some (max m t) := by
  unfold stepMax; rw [h]
  show (if t > m then some t else some m) = some (max m t)
  rcases lt_or_le m t with hlt | hle
  · rw [if_pos hlt, max_eq_right hlt.le]
  · rw [if_neg (not_lt.mpr hle), max_eq_left hle]

/-- The max step on a bare throughput value (the accumulator already holds a
value). -/
def stepMaxQ (m : ℚ) (pt : Sample) : ℚ :=
  match pt.throughput with
  | none => m
  | some t => max m t

theorem stepMaxQ_of_none (m : ℚ) (pt : Sample) (h : pt.throughput = none) :
    stepMaxQ m pt = m := by
  unfold stepMaxQ; rw [h]

theorem stepMaxQ_of_some (m : ℚ) (pt : Sample) (t : ℚ) (h : pt.throughput = some t) :
    stepMaxQ m pt = max m t := by
  unfold stepMaxQ; rw [h]

theorem foldl_stepMax_some (l : List Sample) :
    ∀ m : ℚ, l.foldl stepMax (some m) = some (l.foldl stepMaxQ m) := by
  induction l with
  | nil => intro m; rfl
  | cons pt l ih =>
    intro m
    show l.foldl stepMax (stepMax (some m) pt) = some (l.foldl stepMaxQ (stepMaxQ m pt))
    rcases h : pt.throughput with - | t
    · rw [stepMax_of_none _ _ h, stepMaxQ_of_none _ _ h]
      exact ih m
    · rw [stepMax_some_of_some _ _ _ h, stepMaxQ_of_some _ _ _ h]
      exact ih (max m t)

theorem foldl_stepMaxQ_filterMap (l : List Sample) :
    ∀ m : ℚ, l.foldl stepMaxQ m = (l.filterMap Sample.throughput).foldl max m := by
  induction l with
  | nil => intro m; rfl
  | cons pt l ih =>
    intro m
    show l.foldl stepMaxQ (stepMaxQ m pt) = ((pt :: l).filterMap Sample.throughput).foldl max m
    rcases h : pt.throughput with - | t
    · rw [List.filterMap_cons, h, stepMaxQ_of_none _ _ h]
      exact ih m
    · rw [List.filterMap_cons, h, stepMaxQ_of_some _ _ _ h]
      exact ih (max m t)

/-- The `max_thr` loop computes exactly the maximum of the non-`None`
throughput values (`none` when there is no such value). -/
theorem maxThr_eq_max? (points : List Sample) :
    maxThr points = (points.filterMap Sample.throughput).max? := by
  induction points with
  | nil => rfl
  | cons pt l ih =>
    show l.foldl stepMax (stepMax none pt) = ((pt :: l).filterMap Sample.throughput).max?
    rcases h : pt.throughput with - | t
    · rw [List.filterMap_cons, h, stepMax_of_none _ _ h]
      exact ih
    · rw [List.filterMap_cons, h, stepMax_none_of_some _ _ h, foldl_stepMax_some,
        foldl_stepMaxQ_filterMap]
      rfl

/-- Every throughput present in the list is bounded by the result of the
`max_thr` loop (stated together with a bound on the accumulator). -/
theorem foldl_stepMax_bounds (l : List Sample) :
    ∀ (acc : Option ℚ) (m : ℚ), l.foldl stepMax acc = some m →
      (∀ pt ∈ l, ∀ t : ℚ, pt.throughput = some t → t ≤ m)
        ∧ (∀ a : ℚ, acc = some a → a ≤ m) := by
  induction l with
  | nil =>
    intro acc m hm
    refine ⟨fun pt hpt => absurd hpt (List.not_mem_nil pt), fun a ha => ?_⟩
    rw [ha] at hm
    exact le_of_eq (Option.some.inj hm)
  | cons pt l ih =>
    intro acc m hm
    obtain ⟨ihmem, ihacc⟩ := ih (stepMax acc pt) m hm
    constructor
    · intro pt2 hpt2 t ht
      rcases List.mem_cons.mp hpt2 with rfl | hmem
      · rcases hacc : acc with - | a
        · exact ihacc t (by rw [hacc, stepMax_none_of_some _ _ ht])
        · exact le_trans (le_max_right a t)
            (ihacc (max a t) (by rw [hacc, stepMax_some_of_some _ _ _ ht]))
      · exact ihmem pt2 hmem t ht
    · intro a ha
      rcases hthr : pt.throughput with - | t
      · exact ihacc a (by rw [ha, stepMax_of_none _ _ hthr])
      · exact le_trans (le_max_left a t)
          (ihacc (max a t) (by rw [ha, stepMax_some_of_some _ _ _ hthr]))

theorem maxThr_is_ub (points : List Sample) (m : ℚ) (hm : maxThr points = some m)
    (pt : Sample) (hpt : pt ∈ points) (t : ℚ) (ht : pt.throughput = some t) : t ≤ m :=
  (foldl_stepMax_bounds points none m hm).1 pt hpt t ht

/-- `max_thr` only looks at the throughput field, which `setNorm` leaves
unchanged. -/
theorem maxThr_map_setNorm (points : List Sample) (m : Option ℚ) :
    maxThr (points.map (setNorm m)) = maxThr points := by
  unfold maxThr
  rw [List.foldl_map]
  rfl

/-! ### Claims about the Normalizer -/

/-- C1: `add_normalized` sets each sample's `normalized_throughput` to
`throughput / max_throughput` where `max_throughput` is the maximum of all
non-`None` throughput values, except that the value is `None` when
`max_throughput` is undefined, or zero (falsy), or the sample's own
throughput is `None`; on throughputs `[100000, 82000, None]` the normalized
values are `[1.0, 0.82, None]`, and when every throughput is `None` every
normalized value is `None` (no division happens). -/
theorem add_normalized_normalizes_against_max :
    (∀ points : List Sample,
      (add_normalized points).map Sample.normalized_throughput
        = points.map fun pt =>
            some (match (points.filterMap Sample.throughput).max?, pt.throughput with
                  | some m, some t => if m = 0 then none else some (t / m)
                  | _, _ => none))
    ∧ (add_normalized
        [{ cpu_pct := some 0, throughput := some 100000, latency := some 620 },
         { cpu_pct := some 25, throughput := some 82000, latency := some 640 },
         { cpu_pct := some 50, throughput := none, latency := none }]).map
        Sample.normalized_throughput = [some (some 1), some (some (41 / 50)), some none]
    ∧ (add_normalized
        [{ cpu_pct := some 0, throughput := none, latency := none },
         { cpu_pct := some 25, throughput := none, latency := none }]).map
        Sample.normalized_throughput = [some none, some none] := by
  refine ⟨fun points => ?_, by with_unfolding_all rfl, by with_unfolding_all rfl⟩
  unfold add_normalized
  rw [List.map_map, ← maxThr_eq_max?]
  rfl

/-- C6: the three raw fields are set at parse time and never mutated:
`add_normalized` rewrites only `normalized_throughput` (the raw-field
columns of the list are unchanged), and the CSV and fixed-width renderers
leave the sample list exactly as it was. -/
theorem raw_fields_never_mutated :
    (∀ points : List Sample,
      (add_normalized points).map Sample.cpu_pct = points.map Sample.cpu_pct
      ∧ (add_normalized points).map Sample.throughput = points.map Sample.throughput
      ∧ (add_normalized points).map Sample.latency = points.map Sample.latency)
    ∧ (∀ points : List Sample, (write_csv points).2 = points)
    ∧ (∀ points : List Sample, (print_table points).2 = points) := by
  refine ⟨fun points => ⟨?_, ?_, ?_⟩, fun _ => rfl, fun _ => rfl⟩ <;>
    (unfold add_normalized; rw [List.map_map]; rfl)

/-- C7: the Normalizer is idempotent — running `add_normalized` twice
produces exactly the same list (state included) as running it once, because
it reads only `throughput` and overwrites `normalized_throughput`. -/
theorem add_normalized_idempotent (points : List Sample) :
    add_normalized (add_normalized points) = add_normalized points := by
  have h1 : maxThr (add_normalized points) = maxThr points := by
    unfold add_normalized
    exact maxThr_map_setNorm points (maxThr points)
  show (add_normalized points).map (setNorm (maxThr (add_normalized points)))
      = add_normalized points
  rw [h1]
  show (points.map (setNorm (maxThr points))).map (setNorm (maxThr points))
      = points.map (setNorm (maxThr points))
  rw [List.map_map]
  rfl

/-- C10: after `add_normalized` the `normalized_throughput` key is present
in every sample (possibly holding `None`), and whenever `max_thr` is defined
and nonzero every sample whose throughput equals `max_thr` gets exactly
`1.0` — including when all throughputs are negative, since a negative
maximum is truthy and the division still happens. -/
theorem normalized_key_present_max_one (points : List Sample) (pt : Sample)
    (hmem : pt ∈ add_normalized points) :
    pt.normalized_throughput ≠ none
    ∧ ∀ m : ℚ, maxThr points = some m → m ≠ 0 → pt.throughput = some m →
        pt.normalized_throughput = some (some 1) := by
  obtain ⟨pt0, hpt0, rfl⟩ := List.mem_map.mp hmem
  constructor
  · show some _ ≠ none
    exact Option.some_ne_none _
  · intro m hm hm0 ht
    have ht0 : pt0.throughput = some m := ht
    show some (match maxThr points, pt0.throughput with
      | some m, some thr => if m = 0 then none else some (thr / m)
      | _, _ => none) = some (some 1)
    rw [hm, ht0]
    show some (if m = 0 then none else some (m / m)) = some (some 1)
    rw [if_neg hm0, div_self hm0]

/-- Witness for C10, on an all-negative throughput list: the maximum is
`-2`, truthy, and the sample carrying it is normalized to exactly `1`. -/
theorem normalized_key_present_max_one_witness :
    ({ cpu_pct := some 25, throughput := some (-2), latency := none,
       normalized_throughput := some (some 1) } : Sample).normalized_throughput ≠ none
    ∧ ({ cpu_pct := some 25, throughput := some (-2), latency := none,
         normalized_throughput := some (some 1) } : Sample).normalized_throughput
        = some (some 1) :=
  ⟨(normalized_key_present_max_one
      [{ cpu_pct := some 0, throughput := some (-5), latency := none },
       { cpu_pct := some 25, throughput := some (-2), latency := none }] _
      (by with_unfolding_all decide)).1,
   (normalized_key_present_max_one
      [{ cpu_pct := some 0, throughput := some (-5), latency := none },
       { cpu_pct := some 25, throughput := some (-2), latency := none }] _
      (by with_unfolding_all decide)).2 (-2) (by with_unfolding_all rfl)
      (by norm_num) (by with_unfolding_all rfl)⟩

/-- C8 counterexample: with throughputs `[100, 0]` the maximum is `100`
(defined and nonzero) and the sample with throughput `0` — non-`None` and
non-negative — receives normalized value `0`, which is not in the open-below
interval `(0, 1]` the claim asserts. -/
theorem normalized_unit_range_cex :
    maxThr [{ cpu_pct := some 0, throughput := some 100, latency := none },
            { cpu_pct := some 25, throughput := some 0, latency := none }] = some 100
    ∧ (100 : ℚ) ≠ 0
    ∧ (∃ pt ∈ add_normalized
          [{ cpu_pct := some 0, throughput := some 100, latency := none },
           { cpu_pct := some 25, throughput := some 0, latency := none }],
        pt.throughput = some 0 ∧ pt.normalized_throughput = some (some 0))
    ∧ ¬ (0 : ℚ) < 0 := by
  refine ⟨by with_unfolding_all rfl, by norm_num, ?_, lt_irrefl 0⟩
  exact ⟨{ cpu_pct := some 25, throughput := some 0, latency := none,
           normalized_throughput := some (some 0) },
    by with_unfolding_all decide, by with_unfolding_all rfl, by with_unfolding_all rfl⟩

/-- C8 (amended): when `max_thr` is defined and nonzero, every sample with a
non-`None`, non-negative throughput `t` gets a normalized value in the
closed interval `[0, 1]` — strictly positive exactly when `t` is strictly
positive, and exactly `0` when `t` is `0` — and no clamping is applied;
values can leave `[0, 1]` only for negative throughputs. -/
theorem normalized_unit_range (points : List Sample) (pt : Sample)
    (hmem : pt ∈ add_normalized points) (m : ℚ) (hm : maxThr points = some m)
    (hm0 : m ≠ 0) (t : ℚ) (ht : pt.throughput = some t) (ht0 : 0 ≤ t) :
    ∃ n : ℚ, pt.normalized_throughput = some (some n)
      ∧ 0 ≤ n ∧ n ≤ 1 ∧ (0 < t ↔ 0 < n) ∧ (t = 0 → n = 0) := by
  obtain ⟨pt0, hpt0, rfl⟩ := List.mem_map.mp hmem
  have ht0' : pt0.throughput = some t := ht
  have htm : t ≤ m := maxThr_is_ub points m hm pt0 hpt0 t ht0'
  have hmpos : 0 < m := lt_of_le_of_ne (le_trans ht0 htm) (Ne.symm hm0)
  have hback : 0 < t / m → 0 < t := by
    intro hn
    refine lt_of_le_of_ne ht0 fun h0 => ?_
    rw [← h0, zero_div] at hn
    exact lt_irrefl 0 hn
  refine ⟨t / m, ?_, div_nonneg ht0 hmpos.le, (div_le_one hmpos).mpr htm,
    ⟨fun htpos => div_pos htpos hmpos, hback⟩,
    fun h0 => by rw [h0, zero_div]⟩
  show some (match maxThr points, pt0.throughput with
    | some m, some thr => if m = 0 then none else some (thr / m)
    | _, _ => none) = some (some (t / m))
  rw [hm, ht0']
  show some (if m = 0 then none else some (t / m)) = some (some (t / m))
  rw [if_neg hm0]

/-- Witness for the amended C8: on throughputs `[50, 100]` the sample with
throughput `50` gets a normalized value in `[0, 1]` that is strictly
positive (here `1/2`), and on throughputs `[100, 0]` the sample with
throughput `0` gets a value that must be exactly `0`. -/
theorem normalized_unit_range_witness :
    (∃ n : ℚ,
      (⟨some 0, some 50, none, some (some (1 / 2))⟩ : Sample).normalized_throughput
        = some (some n)
      ∧ 0 ≤ n ∧ n ≤ 1 ∧ (0 < (50 : ℚ) ↔ 0 < n) ∧ ((50 : ℚ) = 0 → n = 0))
    ∧ (∃ n : ℚ,
      (⟨some 25, some 0, none, some (some 0)⟩ : Sample).normalized_throughput
        = some (some n)
      ∧ 0 ≤ n ∧ n ≤ 1 ∧ (0 < (0 : ℚ) ↔ 0 < n) ∧ ((0 : ℚ) = 0 → n = 0)) :=
  ⟨normalized_unit_range
    [{ cpu_pct := some 0, throughput := some 50, latency := none },
     { cpu_pct := some 25, throughput := some 100, latency := none }] _
    (by with_unfolding_all decide) 100 (by with_unfolding_all rfl) (by norm_num)
    50 (by with_unfolding_all rfl) (by norm_num),
   normalized_unit_range
    [{ cpu_pct := some 0, throughput := some 100, latency := none },
     { cpu_pct := some 25, throughput := some 0, latency := none }] _
    (by with_unfolding_all decide) 100 (by with_unfolding_all rfl) (by norm_num)
    0 (by with_unfolding_all rfl) le_rfl⟩



/-! ### Claims about the Point Parser -/

theorem parse_point_error_of_bad_length (text : String)
    (h : (splitComma text.toList).length ≠ 3) :
    parse_point text = .error (badPointMsg text) := by
  unfold parse_point
  rcases hs : splitComma text.toList with - | ⟨a, - | ⟨b, - | ⟨c, - | ⟨d, r⟩⟩⟩⟩
  · rfl
  · rfl
  · rfl
  · rw [hs] at h; exact absurd rfl h
  · rfl

theorem parse_point_ok_of_length (text : String)
    (h : (splitComma text.toList).length = 3) :
    ∃ s : Sample, parse_point text = .ok s := by
  unfold parse_point
  rcases hs : splitComma text.toList with - | ⟨a, - | ⟨b, - | ⟨c, - | ⟨d, r⟩⟩⟩⟩
  · rw [hs] at h; simp at h
  · rw [hs] at h; simp at h
  · rw [hs] at h; simp at h
  · exact ⟨_, rfl⟩
  · rw [hs] at h; simp at h

theorem parse_points_error_of_bad (ts : List String)
    (h : ∃ t ∈ ts, (splitComma t.toList).length ≠ 3) :
    ∃ e, parse_points ts = .error e := by
  induction ts with
  | nil =>
    obtain ⟨t, ht, -⟩ := h
    exact absurd ht (List.not_mem_nil t)
  | cons t ts ih =>
    obtain ⟨u, hu, hlen⟩ := h
    rcases List.mem_cons.mp hu with rfl | hu2
    · refine ⟨badPointMsg u, ?_⟩
      unfold parse_points
      rw [parse_point_error_of_bad_length u hlen]
    · by_cases h3 : (splitComma t.toList).length = 3
      · obtain ⟨s, hs⟩ := parse_point_ok_of_length t h3
        obtain ⟨e, he⟩ := ih ⟨u, hu2, hlen⟩
        refine ⟨e, ?_⟩
        unfold parse_points
        rw [hs, he]
      · refine ⟨badPointMsg t, ?_⟩
        unfold parse_points
        rw [parse_point_error_of_bad_length t h3]

theorem parse_points_ok_of_good (ts : List String)
    (h : ∀ t ∈ ts, (splitComma t.toList).length = 3) :
    ∃ ss, parse_points ts = .ok ss ∧ ss.length = ts.length := by
  induction ts with
  | nil => exact ⟨[], rfl, rfl⟩
  | cons t ts ih =>
    obtain ⟨s, hs⟩ := parse_point_ok_of_length t (h t (List.mem_cons_self t ts))
    obtain ⟨ss, hss, hlen⟩ := ih fun u hu => h u (List.mem_cons_of_mem t hu)
    refine ⟨s :: ss, ?_, by simp [hlen]⟩
    unfold parse_points
    rw [hs, hss]

/-- C2: `parse_point` raises (returns the format error, whose message embeds
the offending token) exactly when splitting on commas does not give three
fields; with three fields it returns a Sample; and in `main` a malformed
positional argument exits with code 1 before anything reaches stdout. -/
theorem parse_point_field_count_spec :
    (∀ text : String, (splitComma text.toList).length ≠ 3 →
        parse_point text = .error (badPointMsg text))
    ∧ (∀ text : String, (splitComma text.toList).length = 3 →
        ∃ s : Sample, parse_point text = .ok s)
    ∧ (∀ (args : Args) (env : Env),
        (∃ t ∈ args.points, (splitComma t.toList).length ≠ 3) →
        pymain args env = (.exit 1, [])) := by
  refine ⟨parse_point_error_of_bad_length, parse_point_ok_of_length, ?_⟩
  intro args env h
  obtain ⟨e, he⟩ := parse_points_error_of_bad args.points h
  unfold pymain
  rw [he]

/-- Witness for C2: a two-field token errors with the expected message, a
three-field token parses, and a four-field token makes `main` exit 1 with an
empty stdout. -/
theorem parse_point_field_count_spec_witness :
    parse_point "x,y" = .error (badPointMsg "x,y")
    ∧ (∃ s : Sample, parse_point "10,500.5,20" = .ok s)
    ∧ pymain { points := ["x,y,z,w"] }
        { csvFileOk := true, matplotlibAvailable := true, savefigOk := true,
          stdoutIsTTY := false } = (.exit 1, []) :=
  ⟨parse_point_field_count_spec.1 "x,y" (by decide),
   parse_point_field_count_spec.2.1 "10,500.5,20" (by decide),
   parse_point_field_count_spec.2.2 _ _ ⟨"x,y,z,w", by decide, by decide⟩⟩

/-- Stripping whitespace padding from both ends does not change the
stripped field. -/
theorem pyStrip_pad (u v cs : List Char) (hu : ∀ c ∈ u, c.isWhitespace)
    (hv : ∀ c ∈ v, c.isWhitespace) :
    pyStrip (u ++ cs ++ v) = pyStrip cs := by
  unfold pyStrip
  rw [List.append_assoc, List.dropWhile_append_of_pos hu, List.dropWhile_append]
  by_cases hd : ((cs.dropWhile Char.isWhitespace).isEmpty : Bool) = true
  · have hv0 : v.dropWhile Char.isWhitespace = [] := by
      rw [← List.append_nil v, List.dropWhile_append_of_pos hv]
      rfl
    rw [if_pos hd, hv0, List.isEmpty_iff.mp hd]
  · rw [if_neg hd, List.reverse_append,
      List.dropWhile_append_of_pos fun c hc => hv c (List.mem_reverse.mp hc)]

/-- C4: `parse_num` trims surrounding whitespace, yields `None` on the empty
field, on the case-insensitive token `N/A`, and (silently) on text `float()`
rejects, and passes valid numeric text through unchanged — no range
restriction, negatives and zero included. -/
theorem parse_num_spec :
    (∀ (u v cs : List Char), (∀ c ∈ u, c.isWhitespace) → (∀ c ∈ v, c.isWhitespace) →
        parse_num (u ++ cs ++ v) = parse_num cs)
    ∧ parse_num [] = none
    ∧ (∀ cs : List Char, pyUpper (pyStrip cs) = ['N', '/', 'A'] → parse_num cs = none)
    ∧ (∀ cs : List Char, pyFloat (pyStrip cs) = none → parse_num cs = none)
    ∧ (∀ cs : List Char, pyStrip cs ≠ [] → pyUpper (pyStrip cs) ≠ ['N', '/', 'A'] →
        parse_num cs = pyFloat (pyStrip cs))
    ∧ parse_num "-5".toList = some (-5)
    ∧ parse_num "0".toList = some 0
    ∧ parse_num " 3.5\t".toList = some (7 / 2)
    ∧ parse_num "N/a".toList = none
    ∧ parse_num "xyz".toList = none := by
  refine ⟨?_, rfl, ?_, ?_, ?_, by with_unfolding_all rfl, by with_unfolding_all rfl,
    by with_unfolding_all rfl, by with_unfolding_all rfl, by with_unfolding_all rfl⟩
  · intro u v cs hu hv
    show (if pyStrip (u ++ cs ++ v) = [] ∨ pyUpper (pyStrip (u ++ cs ++ v)) = ['N', '/', 'A']
          then none else pyFloat (pyStrip (u ++ cs ++ v)))
        = parse_num cs
    rw [pyStrip_pad u v cs hu hv]
    rfl
  · intro cs h
    show (if pyStrip cs = [] ∨ pyUpper (pyStrip cs) = ['N', '/', 'A']
          then none else pyFloat (pyStrip cs)) = none
    rw [if_pos (Or.inr h)]
  · intro cs h
    show (if pyStrip cs = [] ∨ pyUpper (pyStrip cs) = ['N', '/', 'A']
          then none else pyFloat (pyStrip cs)) = none
    by_cases hc : pyStrip cs = [] ∨ pyUpper (pyStrip cs) = ['N', '/', 'A']
    · rw [if_pos hc]
    · rw [if_neg hc]
      exact h
  · intro cs h1 h2
    show (if pyStrip cs = [] ∨ pyUpper (pyStrip cs) = ['N', '/', 'A']
          then none else pyFloat (pyStrip cs)) = pyFloat (pyStrip cs)
    rw [if_neg (not_or.mpr ⟨h1, h2⟩)]

/-- Witness for C4: padding with whitespace is invisible, `n/a` and
unparseable text give `None`, and a valid literal passes through as
`float()` parses it. -/
theorem parse_num_spec_witness :
    parse_num (" ".toList ++ "3.5".toList ++ " ".toList) = parse_num "3.5".toList
    ∧ parse_num "n/a".toList = none
    ∧ parse_num "zz".toList = none
    ∧ parse_num "-5".toList = pyFloat (pyStrip "-5".toList) :=
  ⟨parse_num_spec.1 _ _ _ (by decide) (by decide),
   parse_num_spec.2.2.1 _ (by decide),
   parse_num_spec.2.2.2.1 _ (by decide),
   parse_num_spec.2.2.2.2.1 _ (by decide) (by decide)⟩

/-! ### Claims about main's exit behaviour -/

theorem pymain_parse_error (args : Args) (env : Env) (e : String)
    (he : parse_points args.points = .error e) :
    pymain args env = (.exit 1, []) := by
  unfold pymain
  rw [he]

theorem pymain_parse_ok (args : Args) (env : Env) (ss : List Sample)
    (hok : parse_points args.points = .ok ss) :
    pymain args env
      = if truthyOptStr args.output_csv && !env.csvFileOk then (.exit 1, [])
        else
          if !args.no_plot && !(args.plot_out == "") then
            match plotOutcome (add_normalized ss) env with
            | .wrote =>
              (.exit 0, stdout_render args.format (add_normalized ss) env.stdoutIsTTY
                ++ ["Wrote plot to " ++ args.plot_out ++ "\n"])
            | .failedWrite =>
              (.uncaughtExc, stdout_render args.format (add_normalized ss) env.stdoutIsTTY)
            | _ => (.exit 0, stdout_render args.format (add_normalized ss) env.stdoutIsTTY)
          else (.exit 0, stdout_render args.format (add_normalized ss) env.stdoutIsTTY) := by
  unfold pymain
  rw [hok]

/-- C3 counterexample: with one well-formed point, no `--output-csv`, the
default plot path, matplotlib importable but the chart write failing, the
claim says `main` still returns 0; in the code the exception from
`plt.savefig` escapes `plot` (its `try` has only a `finally`) and `main`,
so the process terminates abnormally instead of returning 0. -/
theorem chart_write_failure_not_graceful_cex :
    (pymain { points := ["1,2,3"] }
      { csvFileOk := true, matplotlibAvailable := true, savefigOk := false,
        stdoutIsTTY := false }).1 = .uncaughtExc
    ∧ (pymain { points := ["1,2,3"] }
        { csvFileOk := true, matplotlibAvailable := true, savefigOk := false,
          stdoutIsTTY := false }).1 ≠ .exit 0 := by
  have h : (pymain { points := ["1,2,3"] }
      { csvFileOk := true, matplotlibAvailable := true, savefigOk := false,
        stdoutIsTTY := false }).1 = .uncaughtExc := by
    with_unfolding_all rfl
  refine ⟨h, ?_⟩
  rw [h]
  decide

/-- C3 (amended): `main` returns 1 exactly when some positional argument is
malformed or (with all arguments well-formed) the `--output-csv` write
fails; matplotlib being unavailable, plotting disabled, or an empty bar list
never produce a nonzero exit; but — contrary to the original claim — a
chart-write failure is not graceful: exactly when parsing and the optional
CSV file succeeded, plotting was attempted (not `--no-plot`, nonempty
output path) on a nonempty sample list and matplotlib imported but the
write failed, the exception escapes `main` and the process terminates
abnormally instead of returning 0.  In every remaining case `main` returns
0. -/
theorem pymain_exit_code_spec (args : Args) (env : Env) :
    ((pymain args env).1 = .exit 1
        ↔ (∃ t ∈ args.points, (splitComma t.toList).length ≠ 3)
            ∨ ((∀ t ∈ args.points, (splitComma t.toList).length = 3)
                ∧ (truthyOptStr args.output_csv && !env.csvFileOk) = true))
    ∧ ((pymain args env).1 = .uncaughtExc
        ↔ (∀ t ∈ args.points, (splitComma t.toList).length = 3)
            ∧ (truthyOptStr args.output_csv && !env.csvFileOk) = false
            ∧ (!args.no_plot && !(args.plot_out == "")) = true
            ∧ env.matplotlibAvailable = true
            ∧ args.points ≠ []
            ∧ env.savefigOk = false)
    ∧ ((pymain args env).1 = .exit 0
        ↔ (∀ t ∈ args.points, (splitComma t.toList).length = 3)
            ∧ (truthyOptStr args.output_csv && !env.csvFileOk) = false
            ∧ ((!args.no_plot && !(args.plot_out == "")) = true →
                env.matplotlibAvailable = true → args.points ≠ [] →
                env.savefigOk = true)) := by
  by_cases hA0 : ∃ t ∈ args.points, (splitComma t.toList).length ≠ 3
  · obtain ⟨e, he⟩ := parse_points_error_of_bad args.points hA0
    rw [pymain_parse_error args env e he]
    have hnotall : ¬ ∀ u ∈ args.points, (splitComma u.toList).length = 3 := by
      obtain ⟨t, ht, hl⟩ := hA0
      exact fun hall => hl (hall t ht)
    exact ⟨iff_of_true rfl (Or.inl hA0),
      iff_of_false (by decide) fun h => hnotall h.1,
      iff_of_false (by decide) fun h => hnotall h.1⟩
  · push_neg at hA0
    have hnA : ¬ ∃ t ∈ args.points, (splitComma t.toList).length ≠ 3 := by
      rintro ⟨t, ht, hl⟩
      exact hl (hA0 t ht)
    obtain ⟨ss, hok, hlen⟩ := parse_points_ok_of_good args.points hA0
    rw [pymain_parse_ok args env ss hok]
    cases hB : truthyOptStr args.output_csv && !env.csvFileOk with
    | true =>
      rw [if_pos rfl]
      exact ⟨iff_of_true rfl (Or.inr ⟨hA0, rfl⟩),
        iff_of_false (by decide) fun h => by simpa using h.2.1,
        iff_of_false (by decide) fun h => by simpa using h.2.1⟩
    | false =>
      rw [if_neg (by decide)]
      cases hPl : !args.no_plot && !(args.plot_out == "") with
      | false =>
        rw [if_neg (by decide)]
        exact ⟨iff_of_false (fun h => absurd (show MainResult.exit 0 = MainResult.exit 1 from h) (by decide)) fun h => h.elim hnA fun h2 => by simpa using h2.2,
          iff_of_false (fun h => absurd (show MainResult.exit 0 = MainResult.uncaughtExc from h) (by decide)) fun h => by simpa using h.2.2.1,
          iff_of_true rfl ⟨hA0, rfl, fun h => by simp at h⟩⟩
      | true =>
        rw [if_pos rfl]
        cases hM : env.matplotlibAvailable with
        | false =>
          have hpo : plotOutcome (add_normalized ss) env = .skippedNoLib := by
            unfold plotOutcome
            rw [hM]
            rfl
          rw [hpo]
          exact ⟨iff_of_false (fun h => absurd (show MainResult.exit 0 = MainResult.exit 1 from h) (by decide)) fun h => h.elim hnA fun h2 => by simpa using h2.2,
            iff_of_false (fun h => absurd (show MainResult.exit 0 = MainResult.uncaughtExc from h) (by decide)) fun h => by simpa using h.2.2.2.1,
            iff_of_true rfl ⟨hA0, rfl, fun _ h2 => by simp at h2⟩⟩
        | true =>
          by_cases hps : args.points = []
          · have hss : ss = [] := by
              rw [← List.length_eq_zero, hlen, hps]
              rfl
            subst hss
            have hpo : plotOutcome (add_normalized []) env = .notRendered := by
              unfold plotOutcome
              rw [hM]
              rfl
            rw [hpo]
            exact ⟨iff_of_false (fun h => absurd (show MainResult.exit 0 = MainResult.exit 1 from h) (by decide)) fun h => h.elim hnA fun h2 => by simpa using h2.2,
              iff_of_false (fun h => absurd (show MainResult.exit 0 = MainResult.uncaughtExc from h) (by decide)) fun h => h.2.2.2.2.1 hps,
              iff_of_true rfl ⟨hA0, rfl, fun _ _ hne => absurd hps hne⟩⟩
          · have hss : ss ≠ [] := by
              intro h
              apply hps
              rw [← List.length_eq_zero, ← hlen, h]
              rfl
            rcases ss with - | ⟨s0, ss0⟩
            · exact absurd rfl hss
            have hemp : (add_normalized (s0 :: ss0)).isEmpty = false := rfl
            cases hS : env.savefigOk with
            | true =>
              have hpo : plotOutcome (add_normalized (s0 :: ss0)) env = .wrote := by
                unfold plotOutcome
                rw [hM, hS, hemp]
                rfl
              rw [hpo]
              exact ⟨iff_of_false (fun h => absurd (show MainResult.exit 0 = MainResult.exit 1 from h) (by decide))
                  fun h => h.elim hnA fun h2 => by simpa using h2.2,
                iff_of_false (fun h => absurd (show MainResult.exit 0 = MainResult.uncaughtExc from h) (by decide)) fun h => by simpa using h.2.2.2.2.2,
                iff_of_true rfl ⟨hA0, rfl, fun _ _ _ => rfl⟩⟩
            | false =>
              have hpo : plotOutcome (add_normalized (s0 :: ss0)) env = .failedWrite := by
                unfold plotOutcome
                rw [hM, hS, hemp]
                rfl
              rw [hpo]
              refine ⟨iff_of_false (fun h => absurd (show MainResult.uncaughtExc = MainResult.exit 1 from h) (by decide))
                  fun h => h.elim hnA fun h2 => by simpa using h2.2,
                iff_of_true rfl ⟨hA0, rfl, rfl, rfl, hps, rfl⟩,
                iff_of_false (fun h => absurd (show MainResult.uncaughtExc = MainResult.exit 0 from h) (by decide)) fun h => ?_⟩
              have := h.2.2 rfl rfl hps
              simp at this

/-- Witness for the amended C3: a malformed token makes `main` return exit
code 1. -/
theorem pymain_exit_code_spec_witness :
    (pymain { points := ["x,y"] }
      { csvFileOk := true, matplotlibAvailable := true, savefigOk := true,
        stdoutIsTTY := false }).1 = .exit 1 :=
  (pymain_exit_code_spec _ _).1.mpr (Or.inl ⟨"x,y", by decide, by decide⟩)

/-! ### Claims about the renderers -/

/-- C5 counterexample: on the end-to-end input the claimed rows
`0,100,...` / `25,75,...` do not match the code's output — `csv.writer`
stringifies the raw float cells, producing `0.0,100.0,...` and
`25.0,75.0,...`. -/
theorem csv_row_format_cex :
    (match parse_point "0,100000.0,620.0", parse_point "25,82000.0,640.0" with
     | .ok a, .ok b => write_csv_lines (add_normalized [a, b])
     | _, _ => [])
    ≠ ["cpu_pct,cpu_availability_pct,throughput,latency,normalized_throughput",
       "0,100,100000.00,620.00,1.0000",
       "25,75,82000.00,640.00,0.8200"] := by
  with_unfolding_all decide

/-- C5 (amended): for the tokens `0,100000.0,620.0` and `25,82000.0,640.0`
with `--format csv`, the stdout CSV is the header followed, in input order,
by exactly `0.0,100.0,100000.00,620.00,1.0000` and
`25.0,75.0,82000.00,640.00,0.8200` (the unformatted `cpu_pct` and
availability cells go through Python `str()`, which renders the parsed
floats as `0.0`, `100.0`, `25.0`, `75.0`). -/
theorem csv_end_to_end_rows :
    (match parse_point "0,100000.0,620.0", parse_point "25,82000.0,640.0" with
     | .ok a, .ok b => write_csv_lines (add_normalized [a, b])
     | _, _ => [])
    = ["cpu_pct,cpu_availability_pct,throughput,latency,normalized_throughput",
       "0.0,100.0,100000.00,620.00,1.0000",
       "25.0,75.0,82000.00,640.00,0.8200"] := by
  with_unfolding_all rfl

/-! ### Claims about the chart sort order -/

/-- C9 counterexample: the sort key is the numeric sentinel 999, so a sample
with the present `cpu_pct` value 1000 sorts after a missing-`cpu_pct`
sample — the missing one is not placed last, refuting the claim that an
absent `cpu_pct` is treated as greater than any present value. -/
theorem sort_missing_last_cex :
    pts_sorted [⟨none, none, none, none⟩, ⟨some 1000, none, none, none⟩]
      = [⟨none, none, none, none⟩, ⟨some 1000, none, none, none⟩]
    ∧ (⟨none, none, none, none⟩ : Sample).cpu_pct = none
    ∧ (⟨some 1000, none, none, none⟩ : Sample).cpu_pct ≠ none := by
  refine ⟨by with_unfolding_all rfl, rfl, by simp⟩

/-- C9 (amended): the chart renderer sorts by `cpu_pct` ascending under the
key `cpu_pct`-else-`999` (a stable sort, a permutation of the input), and
missing-`cpu_pct` samples come after all present ones provided every present
`cpu_pct` is below the sentinel 999. -/
theorem pts_sorted_order_spec (points : List Sample) :
    (pts_sorted points).Pairwise sortLe
    ∧ (pts_sorted points).Perm points
    ∧ ((∀ pt ∈ points, ∀ c : ℚ, pt.cpu_pct = some c → c < 999) →
        (pts_sorted points).Pairwise fun a b => a.cpu_pct = none → b.cpu_pct = none) := by
  have hsorted : (pts_sorted points).Pairwise sortLe :=
    List.sorted_insertionSort sortLe points
  have hperm : (pts_sorted points).Perm points :=
    List.perm_insertionSort sortLe points
  refine ⟨hsorted, hperm, fun hbound => ?_⟩
  refine hsorted.imp_of_mem ?_
  intro a b ha hb hle hanone
  rcases hbc : b.cpu_pct with - | c
  · rfl
  · exfalso
    have hb2 : b ∈ points := hperm.mem_iff.mp hb
    have hcb : c < 999 := hbound b hb2 c hbc
    have hle2 : sort_key a ≤ sort_key b := hle
    have hka : sort_key a = 999 := by unfold sort_key; rw [hanone]
    have hkb : sort_key b = c := by unfold sort_key; rw [hbc]
    rw [hka, hkb] at hle2
    exact absurd hle2 (not_le.mpr hcb)

/-- Witness for the amended C9: with present `cpu_pct` 50 below the
sentinel, the missing-`cpu_pct` sample ends up after it. -/
theorem pts_sorted_order_spec_witness :
    (pts_sorted [⟨some 50, none, none, none⟩, ⟨none, none, none, none⟩]).Pairwise
      (fun a b => a.cpu_pct = none → b.cpu_pct = none) :=
  (pts_sorted_order_spec _).2.2 (by
    intro pt hpt c hc
    rcases List.mem_cons.mp hpt with rfl | h2
    · rw [← Option.some.inj hc]
      norm_num
    · rcases List.mem_cons.mp h2 with rfl | h3
      · exact absurd hc (by simp)
      · exact absurd h3 (List.not_mem_nil pt))

end CassValues
